import Mathlib

/-!
Verification of the healthtrack-insight-api core subsystems against their
natural-language specification.

The development shallowly embeds, in Lean 4:
  - the sliding-window admission limiter (`app/core/rate_limit.py`):
    `RateLimitStore.is_allowed` and `RateLimitMiddleware.dispatch`;
  - the Redis result cache (`app/core/cache.py`): `get`, `set`,
    `delete_pattern`, with the backing store represented as an oracle that
    either answers or raises;
  - the insights engine (`scripts/insights_engine.py`): metric aggregation
    (`get_user_metrics_summary`), the rule catalog, recommendation creation
    (`_create_recommendation`) and `generate_personalized_recommendations`;
  - the recommendations HTTP endpoint
    (`app/api/endpoints/recommendations.py`), with the cache interaction
    made explicit as data.

Machine times are modelled as integers (seconds), metric values as
rationals. Fallible Python code is modelled with `Option` and `Except`.
-/

namespace HealthTrack

/-! ## Admission limiter (`app/core/rate_limit.py`) -/

/-- The in-memory rate-limit store: an association list from client id to
the recorded request timestamps, in append order.  Embeds
`RateLimitStore.requests`. -/
def Store := List (String × List Int)

instance : DecidableEq Store := by
  unfold Store
  infer_instance

/-- Timestamps recorded for a client; a missing key reads as the empty
list, matching the `if client_id not in self.requests` initialisation. -/
def getReqs (st : Store) (c : String) : List Int :=
  (st.lookup c).getD []

/-- Store update for one client key. -/
def setReqs (st : Store) (c : String) (l : List Int) : Store :=
  match st with
  | [] => [(c, l)]
  | (k, v) :: rest => if k = c then (c, l) :: rest else (k, v) :: setReqs rest c l

/-- `RateLimitStore.is_allowed` (`rate_limit.py` lines 26-50): prune
timestamps at or before `now - window`, reject if the limit is already
reached, otherwise record `now` and admit. -/
def is_allowed (st : Store) (c : String) (maxRequests : Nat) (window : Int)
    (now : Int) : Bool × Store :=
  let ts := (getReqs st c).filter (fun t => now - window < t)
  if maxRequests ≤ ts.length then
    (false, setReqs st c ts)
  else
    (true, setReqs st c (ts ++ [now]))

/-- Outcome of one pass through the middleware. -/
inductive DispatchResult where
  | ok
  | rejected (detail : String)
deriving DecidableEq, Repr

/-- `RateLimitMiddleware.dispatch` (`rate_limit.py` lines 95-125), up to the
admission decision: the per-minute gate (600 requests / 60 s) runs first,
then the per-second gate (10 requests / 1 s); each failure raises HTTP 429
with a detail string naming the exceeded limit. -/
def dispatch (enabled : Bool) (st : Store) (client : String) (now : Int) :
    DispatchResult × Store :=
  if !enabled then (.ok, st)
  else
    let r1 := is_allowed st (client ++ ":minute") 600 60 now
    if !r1.1 then
      (.rejected "Rate limit exceeded: max 600 requests/minute", r1.2)
    else
      let r2 := is_allowed r1.2 (client ++ ":second") 10 1 now
      if !r2.1 then
        (.rejected "Rate limit exceeded: max 10 requests/second", r2.2)
      else
        (.ok, r2.2)

/-- Run a sequence of `is_allowed` calls (one client, fixed limit and
window) at the given times, collecting each admission decision. -/
def runAllow (st : Store) (c : String) (maxRequests : Nat) (window : Int) :
    List Int → List Bool × Store
  | [] => ([], st)
  | t :: ts =>
      let r := is_allowed st c maxRequests window t
      let rest := runAllow r.2 c maxRequests window ts
      (r.1 :: rest.1, rest.2)

theorem getReqs_setReqs (st : Store) (c : String) (l : List Int) :
    getReqs (setReqs st c l) c = l := by
  induction st with
  | nil => simp [setReqs, getReqs, List.lookup]
  | cons kv rest ih =>
      obtain ⟨k, v⟩ := kv
      by_cases hk : k = c
      · simp [setReqs, hk, getReqs, List.lookup]
      · have hck : (c == k) = false := by
          simp only [beq_eq_false_iff_ne, ne_eq]
          exact fun h => hk h.symm
        simp only [setReqs, if_neg hk, getReqs, List.lookup, hck] at ih ⊢
        exact ih

theorem runAllow_append (st : Store) (c : String) (N : Nat) (w : Int)
    (ts1 ts2 : List Int) :
    runAllow st c N w (ts1 ++ ts2) =
      ((runAllow st c N w ts1).1 ++
         (runAllow (runAllow st c N w ts1).2 c N w ts2).1,
       (runAllow (runAllow st c N w ts1).2 c N w ts2).2) := by
  induction ts1 generalizing st with
  | nil => simp [runAllow]
  | cons t ts1 ih => simp [runAllow, ih]

theorem runAllow_all_admitted (c : String) (N : Nat) (w : Int) :
    ∀ (ts : List Int) (st : Store) (pre : List Int),
      getReqs st c = pre →
      pre.length + ts.length ≤ N →
      (∀ x ∈ pre ++ ts, ∀ t ∈ ts, t - w < x) →
      (runAllow st c N w ts).1 = List.replicate ts.length true ∧
      getReqs (runAllow st c N w ts).2 c = pre ++ ts := by
  intro ts
  induction ts with
  | nil =>
      intro st pre hpre hlen hwin
      simpa [runAllow] using hpre
  | cons t ts ih =>
      intro st pre hpre hlen hwin
      have hkeep : (getReqs st c).filter (fun x => t - w < x) = pre := by
        rw [hpre]
        apply List.filter_eq_self.mpr
        intro x hx
        simpa using hwin x (List.mem_append_left _ hx) t (by simp)
      have hlt : ¬ (N ≤ pre.length) := by
        simp only [List.length_cons] at hlen
        omega
      have hstep : is_allowed st c N w t = (true, setReqs st c (pre ++ [t])) := by
        simp only [is_allowed, hkeep, if_neg hlt]
      have hrun : runAllow st c N w (t :: ts) =
          ((is_allowed st c N w t).1 ::
             (runAllow (is_allowed st c N w t).2 c N w ts).1,
           (runAllow (is_allowed st c N w t).2 c N w ts).2) := rfl
      have hrest := ih (setReqs st c (pre ++ [t])) (pre ++ [t])
        (getReqs_setReqs st c (pre ++ [t]))
        (by simp at hlen ⊢; omega)
        (by
          intro x hx s hs
          apply hwin x _ s (List.mem_cons_of_mem _ hs)
          simp only [List.append_assoc, List.singleton_append] at hx
          exact hx)
      constructor
      · rw [hrun, hstep, hrest.1]
        simp [List.replicate_succ]
      · rw [hrun, hstep]
        rw [hrest.2]
        simp

/-- C2. For the admission limiter with limit `N` and window `w`, any client
`c`: starting from an empty store, `N` calls at times `init` all lying
within one window are all admitted, the `(N+1)`-th call `tlast` inside the
same window is rejected, and once time has advanced to `tr`, at least `w`
past every recorded request, a further call is admitted again. -/
theorem C2_rate_limiter_window (c : String) (N : Nat) (w : Int)
    (init : List Int) (tlast tr : Int)
    (hN : 0 < N) (hlen : init.length = N)
    (hwin : ∀ a ∈ init ++ [tlast], ∀ b ∈ init ++ [tlast], b - a < w)
    (hrecover : ∀ a ∈ init, a + w ≤ tr) :
    (runAllow [] c N w (init ++ [tlast])).1 = List.replicate N true ++ [false] ∧
    (is_allowed (runAllow [] c N w (init ++ [tlast])).2 c N w tr).1 = true := by
  have hfirst := runAllow_all_admitted c N w init [] [] rfl
    (by simp [hlen])
    (by
      intro x hx t ht
      have := hwin x (List.mem_append_left _ (by simpa using hx)) t
        (List.mem_append_left _ ht)
      omega)
  have hkeep2 : (getReqs (runAllow [] c N w init).2 c).filter
      (fun x => tlast - w < x) = init := by
    rw [hfirst.2]
    simp only [List.nil_append]
    apply List.filter_eq_self.mpr
    intro x hx
    simp only [decide_eq_true_eq]
    have := hwin x (List.mem_append_left _ hx) tlast
      (List.mem_append_right _ (by simp))
    omega
  have hfull : N ≤ ((getReqs (runAllow [] c N w init).2 c).filter
      (fun x => tlast - w < x)).length := by
    rw [hkeep2, hlen]
  have hfail : is_allowed (runAllow [] c N w init).2 c N w tlast =
      (false, setReqs (runAllow [] c N w init).2 c init) := by
    simp only [is_allowed, hkeep2]
    rw [if_pos (le_of_eq hlen.symm)]
  have happ := runAllow_append ([] : Store) c N w init [tlast]
  have hlast : runAllow (runAllow [] c N w init).2 c N w [tlast] =
      ([(is_allowed (runAllow [] c N w init).2 c N w tlast).1],
       (is_allowed (runAllow [] c N w init).2 c N w tlast).2) := rfl
  constructor
  · rw [happ]
    rw [hfirst.1, hlen, hlast, hfail]
  · rw [happ, hlast, hfail]
    have hempty : (getReqs (setReqs (runAllow [] c N w init).2 c init) c).filter
        (fun x => tr - w < x) = [] := by
      rw [getReqs_setReqs]
      apply List.filter_eq_nil_iff.mpr
      intro a ha
      have := hrecover a ha
      simp only [decide_eq_true_eq]
      omega
    simp only [is_allowed, hempty]
    have h0 : ¬ (N ≤ ([] : List Int).length) := by
      simp only [List.length_nil]
      omega
    rw [if_neg h0]

/-- Witness for C2 at `N = 2`, `w = 10`, call times `0, 1, 2`, recovery
time `12`. -/
theorem C2_rate_limiter_window_witness :
    (runAllow [] "c" 2 10 ([0, 1] ++ [2])).1 = List.replicate 2 true ++ [false] ∧
    (is_allowed (runAllow [] "c" 2 10 ([0, 1] ++ [2])).2 "c" 2 10 12).1 = true := by
  exact C2_rate_limiter_window "c" 2 10 [0, 1] 2 12 (by decide) (by decide)
    (by decide) (by decide)

theorem getReqs_setReqs_ne (st : Store) (c c' : String) (l : List Int)
    (h : c ≠ c') : getReqs (setReqs st c l) c' = getReqs st c' := by
  induction st with
  | nil =>
      have : (c' == c) = false := by
        simp only [beq_eq_false_iff_ne, ne_eq]
        exact fun hc => h hc.symm
      simp [setReqs, getReqs, List.lookup, this]
  | cons kv rest ih =>
      obtain ⟨k, v⟩ := kv
      by_cases hk : k = c
      · subst hk
        have hc' : (c' == k) = false := by
          simp only [beq_eq_false_iff_ne, ne_eq]
          exact fun hc => h hc.symm
        simp [setReqs, getReqs, List.lookup, hc']
      · simp only [setReqs, if_neg hk, getReqs, List.lookup] at ih ⊢
        cases hek : (c' == k) <;> simp [hek, ih]

theorem is_allowed_true_state (st : Store) (c : String) (m : Nat) (w now : Int)
    (h : (is_allowed st c m w now).1 = true) :
    (is_allowed st c m w now).2 =
      setReqs st c (((getReqs st c).filter (fun t => now - w < t)) ++ [now]) := by
  by_cases hle : m ≤ ((getReqs st c).filter (fun t => now - w < t)).length
  · simp [is_allowed, hle] at h
  · simp [is_allowed, hle]

theorem is_allowed_false_state (st : Store) (c : String) (m : Nat) (w now : Int)
    (h : (is_allowed st c m w now).1 = false) :
    (is_allowed st c m w now).2 =
      setReqs st c ((getReqs st c).filter (fun t => now - w < t)) := by
  by_cases hle : m ≤ ((getReqs st c).filter (fun t => now - w < t)).length
  · simp [is_allowed, hle]
  · simp [is_allowed, hle] at h

theorem minute_key_ne_second_key (client : String) :
    client ++ ":minute" ≠ client ++ ":second" := by
  intro h
  have hd : (client ++ ":minute").data = (client ++ ":second").data := by rw [h]
  rw [String.data_append, String.data_append] at hd
  have := List.append_cancel_left hd
  simp at this

set_option maxRecDepth 100000

/-- C7 counterexample: a state in which BOTH the per-second and the
per-minute limits are already exhausted.  The emitted rejection names the
per-minute limit, because the per-minute gate runs first; under the claimed
per-second-first ordering the response would have named the per-second
limit. -/
theorem C7_counterexample_minute_reported_first :
    (is_allowed [("c:minute", List.replicate 600 0), ("c:second", List.replicate 10 0)]
        ("c" ++ ":second") 10 1 0).1 = false ∧
    (dispatch true
        [("c:minute", List.replicate 600 0), ("c:second", List.replicate 10 0)]
        "c" 0).1 =
      DispatchResult.rejected "Rate limit exceeded: max 600 requests/minute" ∧
    ("Rate limit exceeded: max 600 requests/minute" : String) ≠
      "Rate limit exceeded: max 10 requests/second" := by
  refine ⟨by decide, by decide, by decide⟩

/-- C7 (amended). The admission controller enforces the two granularities
in sequence with the per-minute sustained limit (600 requests/minute)
checked first and the per-second burst limit (10 requests/second) checked
second; failing either check is sufficient to reject the request, and the
rejection carries a distinguishable detail string naming the limit that was
exceeded. -/
theorem C7_minute_gate_then_second_gate (st : Store) (client : String) (now : Int) :
    ((dispatch true st client now).1 = DispatchResult.ok ↔
      (is_allowed st (client ++ ":minute") 600 60 now).1 = true ∧
      (is_allowed (is_allowed st (client ++ ":minute") 600 60 now).2
        (client ++ ":second") 10 1 now).1 = true) ∧
    ((dispatch true st client now).1 =
        DispatchResult.rejected "Rate limit exceeded: max 600 requests/minute" ↔
      (is_allowed st (client ++ ":minute") 600 60 now).1 = false) ∧
    ((dispatch true st client now).1 =
        DispatchResult.rejected "Rate limit exceeded: max 10 requests/second" ↔
      (is_allowed st (client ++ ":minute") 600 60 now).1 = true ∧
      (is_allowed (is_allowed st (client ++ ":minute") 600 60 now).2
        (client ++ ":second") 10 1 now).1 = false) ∧
    ("Rate limit exceeded: max 600 requests/minute" : String) ≠
      "Rate limit exceeded: max 10 requests/second" := by
  cases h1 : (is_allowed st (client ++ ":minute") 600 60 now).1 <;>
    cases h2 : (is_allowed (is_allowed st (client ++ ":minute") 600 60 now).2
      (client ++ ":second") 10 1 now).1 <;>
    simp [dispatch, h1, h2]

/-- C9. When the per-minute gate admits the request and the per-second gate
then rejects it, the final store still holds the freshly appended timestamp
in the per-minute window: the rejected request consumed a per-minute slot
and is not rolled back. -/
theorem C9_minute_slot_consumed (st : Store) (client : String) (now : Int)
    (h1 : (is_allowed st (client ++ ":minute") 600 60 now).1 = true)
    (h2 : (is_allowed (is_allowed st (client ++ ":minute") 600 60 now).2
        (client ++ ":second") 10 1 now).1 = false) :
    (dispatch true st client now).1 =
      DispatchResult.rejected "Rate limit exceeded: max 10 requests/second" ∧
    getReqs (dispatch true st client now).2 (client ++ ":minute") =
      ((getReqs st (client ++ ":minute")).filter (fun t => now - 60 < t)) ++ [now] := by
  have hds : dispatch true st client now =
      (DispatchResult.rejected "Rate limit exceeded: max 10 requests/second",
       (is_allowed (is_allowed st (client ++ ":minute") 600 60 now).2
         (client ++ ":second") 10 1 now).2) := by
    simp [dispatch, h1, h2]
  refine ⟨by rw [hds], ?_⟩
  rw [hds]
  rw [is_allowed_false_state _ _ _ _ _ h2]
  rw [getReqs_setReqs_ne _ _ _ _ (Ne.symm (minute_key_ne_second_key client))]
  rw [is_allowed_true_state _ _ _ _ _ h1]
  rw [getReqs_setReqs]

/-- Witness for C9: empty per-minute window, saturated per-second window. -/
theorem C9_minute_slot_consumed_witness :
    (dispatch true [("c:second", List.replicate 10 0)] "c" 0).1 =
      DispatchResult.rejected "Rate limit exceeded: max 10 requests/second" ∧
    getReqs (dispatch true [("c:second", List.replicate 10 0)] "c" 0).2
        ("c" ++ ":minute") =
      ((getReqs [("c:second", List.replicate 10 0)] ("c" ++ ":minute")).filter
        (fun t => (0 : Int) - 60 < t)) ++ [0] := by
  exact C9_minute_slot_consumed [("c:second", List.replicate 10 0)] "c" 0
    (by decide) (by decide)

/-! ## Result cache (`app/core/cache.py`)

The backing Redis store and the JSON codec are external collaborators; each
interaction inside a `try` block is modelled as an oracle answer that
either yields a value or raises. -/

/-- One interaction with the backing store (or codec): a normal answer, or
a raised exception. -/
inductive BackendOutcome (α : Type) where
  | ok (a : α)
  | exc
deriving DecidableEq, Repr

/-- `RedisCache.get` (`cache.py` lines 51-62).  `enabled` is the
configuration flag, `connected` whether `self.redis` is non-null; `fetch`
is the answer of `redis.get` (a raw string, `none` for a nil reply) and
`decode` the behaviour of `json.loads` on each raw string.  The Python
`if value:` guard makes an empty raw string fall through to `None`. -/
def cacheGet {α : Type} (enabled connected : Bool)
    (fetch : BackendOutcome (Option String))
    (decode : String → BackendOutcome α) : Option α :=
  if !enabled || !connected then none
  else
    match fetch with
    | .exc => none
    | .ok none => none
    | .ok (some raw) =>
        if raw = "" then none
        else
          match decode raw with
          | .exc => none
          | .ok v => some v

/-- `RedisCache.set` (`cache.py` lines 64-79); `write` covers the whole
`try` body (`json.dumps` plus `redis.set`). -/
def cacheSet (enabled connected : Bool) (write : BackendOutcome Unit) : Bool :=
  if !enabled || !connected then false
  else
    match write with
    | .exc => false
    | .ok _ => true

/-- `RedisCache.delete_pattern` (`cache.py` lines 93-105); `scan` is the
answer of `redis.keys(pattern)` and `remove` the answer of
`redis.delete(*keys)` for a non-empty key list. -/
def cacheDeletePattern (enabled connected : Bool)
    (scan : BackendOutcome (List String)) (remove : BackendOutcome Nat) : Nat :=
  if !enabled || !connected then 0
  else
    match scan with
    | .exc => 0
    | .ok keys =>
        if keys = [] then 0
        else
          match remove with
          | .exc => 0
          | .ok n => n

/-- C3. With the cache disabled (configuration flag off, or no connection)
every operation is a silent no-op: `get` misses, `set` reports not stored,
`delete_pattern` reports zero removals; and when the backing store raises
at any point, each operation degrades to the very same miss/no-op result
instead of propagating the failure. -/
theorem C3_cache_disabled_and_exception_noop {α : Type}
    (en conn : Bool) (fetch : BackendOutcome (Option String))
    (decode : String → BackendOutcome α) (raw : String)
    (write : BackendOutcome Unit)
    (scan : BackendOutcome (List String)) (keys : List String)
    (remove : BackendOutcome Nat) :
    (cacheGet false conn fetch decode = none ∧
     cacheGet en false fetch decode = none ∧
     cacheSet false conn write = false ∧
     cacheSet en false write = false ∧
     cacheDeletePattern false conn scan remove = 0 ∧
     cacheDeletePattern en false scan remove = 0) ∧
    (cacheGet true true .exc decode = none ∧
     cacheGet true true (.ok (some raw))
       (fun _ => (BackendOutcome.exc : BackendOutcome α)) = none ∧
     cacheSet true true .exc = false ∧
     cacheDeletePattern true true .exc remove = 0 ∧
     cacheDeletePattern true true (.ok keys) .exc = 0) := by
  refine ⟨⟨?_, ?_, ?_, ?_, ?_, ?_⟩, ?_, ?_, ?_, ?_, ?_⟩
  · simp [cacheGet]
  · simp [cacheGet]
  · simp [cacheSet]
  · simp [cacheSet]
  · simp [cacheDeletePattern]
  · simp [cacheDeletePattern]
  · simp [cacheGet]
  · by_cases hr : raw = "" <;> simp [cacheGet, hr]
  · simp [cacheSet]
  · simp [cacheDeletePattern]
  · by_cases hk : keys = [] <;> simp [cacheDeletePattern, hk]

/-! ## Insights engine (`scripts/insights_engine.py`)

Metric values live in ℚ; a sample whose stored string does not parse as a
number (`float(metric.value)` raises) is carried as `none`.  Timestamps are
integer seconds; dates are explicit year/month/day triples. -/

/-- One row of `health_metrics` as the engine sees it. -/
structure HealthMetric where
  metric_type : String
  value : Option ℚ
  recorded_at : Int
deriving DecidableEq, Repr

/-- One row of `health_goals` as the engine sees it. -/
structure HealthGoal where
  goal_type : String
  status : String
deriving DecidableEq, Repr

/-- Calendar date, for age derivation. -/
structure CalDate where
  year : Int
  month : Nat
  day : Nat
deriving DecidableEq, Repr

/-- The user profile fields the engine reads. -/
structure UserProfile where
  id : Int
  date_of_birth : Option CalDate
deriving DecidableEq, Repr

/-- Statistics of one metric type, the value of
`get_user_metrics_summary`.  `stdevSq` is the SQUARE of the
`statistics.stdev` entry: the library returns the square root of the
sample variance, and every property at stake (divisor `n - 1`, zero when
fewer than two values) is visible on the square, which stays inside ℚ. -/
structure MetricStats where
  count : Nat
  average : ℚ
  minV : ℚ
  maxV : ℚ
  stdevSq : ℚ
  latest : ℚ
deriving DecidableEq, Repr

/-- Insertion-order list of the distinct metric types, mirroring Python
dict key order in `metrics_by_type`. -/
def groupTypes (ms : List HealthMetric) : List String :=
  ms.foldl (fun acc m => if m.metric_type ∈ acc then acc else acc ++ [m.metric_type]) []

/-- The numeric values of type `t`, in list order; non-numeric values are
dropped by the `except (ValueError, TypeError): pass` handler. -/
def valuesOf (ms : List HealthMetric) (t : String) : List ℚ :=
  (ms.filter (fun m => m.metric_type = t)).filterMap (fun m => m.value)

def listMean (vs : List ℚ) : ℚ := vs.sum / vs.length

def listMin : List ℚ → ℚ
  | [] => 0
  | v :: rest => rest.foldl Min.min v

def listMax : List ℚ → ℚ
  | [] => 0
  | v :: rest => rest.foldl Max.max v

/-- Sum of squared deviations from the mean. -/
def sumSqDev (vs : List ℚ) : ℚ := (vs.map (fun x => (x - listMean vs) ^ 2)).sum

/-- The statistics dict built for one metric type (`insights_engine.py`
lines 128-135); only ever applied to a non-empty value list. -/
def mkStats (vs : List ℚ) : MetricStats :=
  { count := vs.length
    average := listMean vs
    minV := listMin vs
    maxV := listMax vs
    stdevSq := if 1 < vs.length then sumSqDev vs / ((vs.length : ℚ) - 1) else 0
    latest := (vs.getLast?).getD 0 }

/-- The `recorded_at >= cutoff_date` restriction of the metrics query of
the engine, with `cutoff_date = now - timedelta(days=days)` in seconds. -/
def windowSamples (samples : List HealthMetric) (now days : Int) : List HealthMetric :=
  samples.filter (fun m => now - days * 86400 ≤ m.recorded_at)

/-- `get_user_metrics_summary` (`insights_engine.py` lines 103-137): keep
the samples of the trailing `days`-day window, group by metric type in
first-occurrence order, drop types with no valid numeric value, and
summarise the rest. -/
def get_user_metrics_summary (samples : List HealthMetric) (now days : Int) :
    List (String × MetricStats) :=
  let inWin := windowSamples samples now days
  (groupTypes inWin).filterMap (fun t =>
    let vs := valuesOf inWin t
    if vs = [] then none else some (t, mkStats vs))

/-- `get_user_goals` (`insights_engine.py` lines 139-146): only rows with
status "active". -/
def get_user_goals (goals : List HealthGoal) : List HealthGoal :=
  goals.filter (fun g => g.status = "active")

/-- `_get_user_age` (`insights_engine.py` lines 267-276). The Python tuple
comparison `(today.month, today.day) < (dob.month, dob.day)` is
lexicographic. -/
def getUserAge (user : UserProfile) (today : CalDate) : Option Int :=
  match user.date_of_birth with
  | none => none
  | some dob =>
      some (today.year - dob.year -
        (if today.month < dob.month ∨ (today.month = dob.month ∧ today.day < dob.day)
         then 1 else 0))

/-- The keys of the static rule dictionary built by `_initialize_rules`. -/
inductive RuleId where
  | low_step_count
  | insufficient_sleep
  | elevated_heart_rate
  | weight_management
  | poor_nutrition
  | low_water_intake
deriving DecidableEq, Repr

/-- One entry of the rule dictionary. -/
structure RuleConfig where
  threshold : Option ℚ
  metric_type : String
  title : String
  reasoning_template : String
  action_steps : List String
deriving DecidableEq, Repr

/-- `_initialize_rules` (`insights_engine.py` lines 26-101). -/
def recommendation_rules : RuleId → RuleConfig
  | .low_step_count =>
      { threshold := some 5000
        metric_type := "steps"
        title := "Increase Daily Activity"
        reasoning_template := "Your daily steps average {value} but recommended is 10,000+"
        action_steps :=
          [ "Start with a 10-minute walk after meals"
          , "Use stairs instead of elevators"
          , "Park further away to increase walking distance"
          , "Try a step-tracking challenge with friends" ] }
  | .insufficient_sleep =>
      { threshold := some 7
        metric_type := "sleep_hours"
        title := "Improve Sleep Quality"
        reasoning_template := "Your average sleep is {value} hours, but 7-9 hours recommended"
        action_steps :=
          [ "Establish a consistent bedtime routine"
          , "Avoid screens 1 hour before bed"
          , "Keep bedroom temperature between 65-68Â°F"
          , "Limit caffeine after 2 PM" ] }
  | .elevated_heart_rate =>
      { threshold := some 85
        metric_type := "heart_rate"
        title := "Reduce Resting Heart Rate"
        reasoning_template := "Your resting heart rate is {value} bpm, elevated for optimal health"
        action_steps :=
          [ "Practice deep breathing exercises (5 min daily)"
          , "Engage in regular cardio (150 min/week)"
          , "Reduce stress through meditation or yoga"
          , "Limit caffeine and alcohol" ] }
  | .weight_management =>
      { threshold := none
        metric_type := "weight"
        title := "Track Weight Progress"
        reasoning_template := "Current weight tracking enabled - focus on consistency"
        action_steps :=
          [ "Weigh yourself at same time daily (morning best)"
          , "Track weekly averages instead of daily fluctuations"
          , "Combine with exercise and nutrition logs"
          , "Set realistic 1-2 lbs per week loss target" ] }
  | .poor_nutrition =>
      { threshold := some 2000
        metric_type := "calories"
        title := "Improve Daily Nutrition"
        reasoning_template := "Average daily calories: {value}, consider balanced intake"
        action_steps :=
          [ "Log all meals for one week to establish baseline"
          , "Aim for balance: 50% carbs, 25% protein, 25% fat"
          , "Increase water intake to 8+ glasses daily"
          , "Meal prep on Sundays for the week" ] }
  | .low_water_intake =>
      { threshold := some 2000
        metric_type := "water_intake_ml"
        title := "Stay Hydrated"
        reasoning_template := "Average daily water intake: {value}ml, aim for 2000-3000ml"
        action_steps :=
          [ "Drink glass of water when you wake up"
          , "Set hourly reminders to drink water"
          , "Carry a water bottle throughout the day"
          , "Drink water before, during, and after exercise" ] }

/-- Python `f"{metric_value:.1f}"`: fixed-point rendering with one decimal
digit.  The exact tie-breaking of the underlying binary rounding is
immaterial to every claim below, which never inspects the digits. -/
def fmt1 (q : ℚ) : String :=
  let n : Int := ⌊q * 10 + 1 / 2⌋
  toString (n / 10) ++ "." ++ toString ((n % 10).natAbs)

/-- One produced recommendation (schema `PersonalizedRecommendation`). -/
structure PersonalizedRecommendation where
  rank : Nat
  title : String
  description : String
  reasoning : String
  action_steps : List String
  related_metrics : List String
  impact_area : String
  severity : String
deriving DecidableEq, Repr

/-- `_create_recommendation` (`insights_engine.py` lines 278-311). -/
def createRecommendation (rank : Nat) (rule : RuleId) (user_age : Option Int)
    (metric_value : Option ℚ) : PersonalizedRecommendation :=
  let rule_config := recommendation_rules rule
  let action_steps :=
    if (match user_age with
        | some a => decide (60 < a)
        | none => false) && (rule == RuleId.low_step_count)
    then "Consider low-impact activities like swimming" :: rule_config.action_steps
    else rule_config.action_steps
  let reasoning :=
    match metric_value with
    | none => rule_config.reasoning_template
    | some v => rule_config.reasoning_template.replace "{value}" (fmt1 v)
  { rank := rank
    title := rule_config.title
    description := "Based on your health data from the past 30 days, we recommend focusing on this area"
    reasoning := reasoning
    action_steps := action_steps
    related_metrics := [rule_config.metric_type]
    impact_area := rule_config.metric_type
    severity :=
      match metric_value with
      | none => "medium"
      | some v => if (3 / 2 : ℚ) < v then "high" else "medium" }

/-- The `recommendations.append(self._create_recommendation(rank=len(recommendations) + 1, ...))`
pattern common to the six rule blocks. -/
def addRec (cond : Bool) (mk : Nat → PersonalizedRecommendation)
    (acc : List PersonalizedRecommendation) : List PersonalizedRecommendation :=
  if cond then acc ++ [mk (acc.length + 1)] else acc

/-- Stable insertion step for `sortByRank`. -/
def insertByRank (x : PersonalizedRecommendation) :
    List PersonalizedRecommendation → List PersonalizedRecommendation
  | [] => [x]
  | y :: ys => if x.rank ≤ y.rank then x :: y :: ys else y :: insertByRank x ys

/-- `recommendations.sort(key=lambda x: x.rank)`: Python `list.sort` is a
stable ascending sort, modelled as stable insertion sort. -/
def sortByRank : List PersonalizedRecommendation → List PersonalizedRecommendation
  | [] => []
  | x :: xs => insertByRank x (sortByRank xs)

/-- The re-ranking loop `for i, rec in enumerate(recommendations, 1):
rec.rank = i`. -/
def renumber (l : List PersonalizedRecommendation) : List PersonalizedRecommendation :=
  l.mapIdx (fun i r => { r with rank := i + 1 })

/-- The response envelope (schema `PersonalizedRecommendationsResponse`). -/
structure PersonalizedRecommendationsResponse where
  user_id : Int
  recommendations : List PersonalizedRecommendation
  generated_at : Int
  based_on_period_days : Int
deriving DecidableEq, Repr

/-- The fixed evaluation order of the six rule blocks of
`generate_personalized_recommendations` (`insights_engine.py` lines
175-250). -/
def ruleOrder : List RuleId :=
  [ .low_step_count, .insufficient_sleep, .elevated_heart_rate
  , .weight_management, .poor_nutrition, .low_water_intake ]

/-- The trigger condition of each rule block, verbatim from the six `if`
statements of `generate_personalized_recommendations`; Python
`str.startswith` is the character-wise prefix test. -/
def ruleTriggers (metrics_summary : List (String × MetricStats))
    (goals : List HealthGoal) : RuleId → Bool
  | .low_step_count =>
      match metrics_summary.lookup "steps" with
      | some st => decide (st.average < 5000)
      | none => false
  | .insufficient_sleep =>
      match metrics_summary.lookup "sleep_hours" with
      | some st => decide (st.average < 7)
      | none => false
  | .elevated_heart_rate =>
      match metrics_summary.lookup "heart_rate" with
      | some st => decide (85 < st.average)
      | none => false
  | .weight_management =>
      (metrics_summary.lookup "weight").isSome ||
        goals.any (fun g => g.goal_type == "weight_loss")
  | .poor_nutrition =>
      (metrics_summary.lookup "calories").isSome ||
        goals.any (fun g => List.isPrefixOf "better_nutrition".data g.goal_type.data)
  | .low_water_intake =>
      match metrics_summary.lookup "water_intake_ml" with
      | some st => decide (st.average < 2000)
      | none => false

/-- The `metric_value` argument each rule block passes to
`_create_recommendation`; the nutrition block uses
`metrics_summary.get("calories", {}).get("average")`, which is `none`
when the aggregate is absent. -/
def ruleValue (metrics_summary : List (String × MetricStats)) : RuleId → Option ℚ
  | .low_step_count => (metrics_summary.lookup "steps").map (fun st => st.average)
  | .insufficient_sleep => (metrics_summary.lookup "sleep_hours").map (fun st => st.average)
  | .elevated_heart_rate => (metrics_summary.lookup "heart_rate").map (fun st => st.average)
  | .weight_management => none
  | .poor_nutrition => (metrics_summary.lookup "calories").map (fun st => st.average)
  | .low_water_intake => (metrics_summary.lookup "water_intake_ml").map (fun st => st.average)

/-- The six sequential rule blocks of
`generate_personalized_recommendations`: each triggered rule appends one
recommendation with `rank = len(recommendations) + 1`. -/
def buildRecommendations (metrics_summary : List (String × MetricStats))
    (goals : List HealthGoal) (age : Option Int) : List PersonalizedRecommendation :=
  ruleOrder.foldl
    (fun acc r => addRec (ruleTriggers metrics_summary goals r)
      (fun n => createRecommendation n r age (ruleValue metrics_summary r)) acc)
    []

/-- `generate_personalized_recommendations` (`insights_engine.py` lines
153-265).  The datastore reads are the `samples` / `allGoals` / `userOpt`
arguments; `userOpt = none` is the `scalar_one_or_none` miss. -/
def generate_personalized_recommendations (userOpt : Option UserProfile)
    (samples : List HealthMetric) (allGoals : List HealthGoal)
    (today : CalDate) (now : Int) (user_id days : Int) :
    Option PersonalizedRecommendationsResponse :=
  match userOpt with
  | none => none
  | some user =>
      let metrics_summary := get_user_metrics_summary samples now days
      let goals := get_user_goals allGoals
      let age := getUserAge user today
      let recommendations := buildRecommendations metrics_summary goals age
      let recs := renumber ((sortByRank recommendations).take 5)
      some { user_id := user_id
             recommendations := recs
             generated_at := now
             based_on_period_days := days }

theorem createRecommendation_rank (n : Nat) (rule : RuleId) (age : Option Int)
    (mv : Option ℚ) : (createRecommendation n rule age mv).rank = n := rfl

theorem createRecommendation_title (n : Nat) (rule : RuleId) (age : Option Int)
    (mv : Option ℚ) :
    (createRecommendation n rule age mv).title = (recommendation_rules rule).title := rfl

theorem addRec_map_rank (c : Bool) (mk : Nat → PersonalizedRecommendation)
    (acc : List PersonalizedRecommendation)
    (hmk : ∀ n, (mk n).rank = n)
    (h : acc.map (fun r => r.rank) = List.range' 1 acc.length) :
    (addRec c mk acc).map (fun r => r.rank) =
      List.range' 1 (addRec c mk acc).length := by
  cases c with
  | false => simpa [addRec] using h
  | true =>
      simp only [addRec, if_pos, List.map_append, List.length_append, h,
        List.map_cons, List.map_nil, hmk, List.length_cons, List.length_nil]
      have hc := List.range'_1_concat 1 acc.length
      rw [show (1 : Nat) + acc.length = acc.length + 1 from by omega] at hc
      rw [show acc.length + (0 + 1) = acc.length + 1 from by omega, ← hc]

theorem build_map_rank (ms : List (String × MetricStats)) (goals : List HealthGoal)
    (age : Option Int) :
    (buildRecommendations ms goals age).map (fun r => r.rank) =
      List.range' 1 (buildRecommendations ms goals age).length := by
  have key : ∀ (rs : List RuleId) (acc : List PersonalizedRecommendation),
      acc.map (fun r => r.rank) = List.range' 1 acc.length →
      (rs.foldl (fun acc r => addRec (ruleTriggers ms goals r)
        (fun n => createRecommendation n r age (ruleValue ms r)) acc) acc).map
          (fun r => r.rank) =
        List.range' 1 ((rs.foldl (fun acc r => addRec (ruleTriggers ms goals r)
          (fun n => createRecommendation n r age (ruleValue ms r)) acc) acc)).length := by
    intro rs
    induction rs with
    | nil => intro acc h; simpa using h
    | cons r rs ih =>
        intro acc h
        exact ih _ (addRec_map_rank _ _ _ (fun n => createRecommendation_rank n r age _) h)
  exact key ruleOrder [] rfl

theorem rank_pairwise_of_range (l : List PersonalizedRecommendation)
    (h : l.map (fun r => r.rank) = List.range' 1 l.length) :
    l.Pairwise (fun a b => a.rank ≤ b.rank) := by
  have hp : (l.map (fun r => r.rank)).Pairwise (· ≤ ·) := by
    rw [h]
    exact (List.pairwise_lt_range' 1 l.length).imp Nat.le_of_lt
  exact (List.pairwise_map).mp hp

theorem sortByRank_eq_self (l : List PersonalizedRecommendation)
    (h : l.Pairwise (fun a b => a.rank ≤ b.rank)) : sortByRank l = l := by
  induction l with
  | nil => rfl
  | cons x xs ih =>
      rw [List.pairwise_cons] at h
      rw [sortByRank, ih h.2]
      cases xs with
      | nil => rfl
      | cons y ys =>
          rw [insertByRank, if_pos (h.1 y (List.mem_cons_self y ys))]

theorem mapIdx_setRank_map (g : Nat → Nat) {α : Type}
    (f : PersonalizedRecommendation → α)
    (hf : ∀ r n, f { r with rank := n } = f r) :
    ∀ l : List PersonalizedRecommendation,
      (l.mapIdx (fun i r => { r with rank := g i })).map f = l.map f := by
  intro l
  induction l generalizing g with
  | nil => simp
  | cons x xs ih =>
      rw [List.mapIdx_cons, List.map_cons, List.map_cons, hf, ih (fun i => g (i + 1))]

theorem mapIdx_setRank_ranks (g : Nat → Nat) :
    ∀ l : List PersonalizedRecommendation,
      (l.mapIdx (fun i r => { r with rank := g i })).map (fun r => r.rank) =
        (List.range l.length).map g := by
  intro l
  induction l generalizing g with
  | nil => simp
  | cons x xs ih =>
      rw [List.mapIdx_cons, List.map_cons, List.length_cons,
        List.range_succ_eq_map, List.map_cons, List.map_map,
        ih (fun i => g (i + 1))]
      rfl

theorem renumber_map_rank (l : List PersonalizedRecommendation) :
    (renumber l).map (fun r => r.rank) = List.range' 1 l.length := by
  rw [renumber, mapIdx_setRank_ranks (fun i => i + 1) l, List.range'_eq_map_range]
  apply List.map_congr_left
  intro a _
  omega

theorem renumber_length (l : List PersonalizedRecommendation) :
    (renumber l).length = l.length := by
  simp [renumber]

theorem foldl_addRec_titles (ms : List (String × MetricStats))
    (goals : List HealthGoal) (age : Option Int) :
    ∀ (rs : List RuleId) (acc : List PersonalizedRecommendation),
      List.Sublist
        ((rs.foldl (fun acc r => addRec (ruleTriggers ms goals r)
          (fun n => createRecommendation n r age (ruleValue ms r)) acc) acc).map
            (fun r => r.title))
        (acc.map (fun r => r.title) ++
          rs.map (fun r => (recommendation_rules r).title)) := by
  intro rs
  induction rs with
  | nil =>
      intro acc
      simp
  | cons r rs ih =>
      intro acc
      have h1 := ih (addRec (ruleTriggers ms goals r)
        (fun n => createRecommendation n r age (ruleValue ms r)) acc)
      have h2 : List.Sublist
          ((addRec (ruleTriggers ms goals r)
            (fun n => createRecommendation n r age (ruleValue ms r)) acc).map
              (fun x => x.title))
          (acc.map (fun x => x.title) ++ [(recommendation_rules r).title]) := by
        cases hc : ruleTriggers ms goals r with
        | false =>
            simp only [addRec, hc, Bool.false_eq_true, if_false]
            exact List.sublist_append_left _ _
        | true =>
            simp [addRec, hc, createRecommendation_title]
      exact h1.trans (by
        have h3 := h2.append_right (rs.map (fun r => (recommendation_rules r).title))
        simpa using h3)

/-- C1. For every user and window the produced recommendation list has at
most 5 entries, the ranks are the dense sequence `1 .. len`, and the
titles appear as a subsequence of the fixed rule-catalog order, so the
list is never re-sorted by computed severity. -/
theorem C1_recommendation_list_shape (u : UserProfile) (samples : List HealthMetric)
    (allGoals : List HealthGoal) (today : CalDate) (now user_id days : Int) :
    ∃ resp, generate_personalized_recommendations (some u) samples allGoals
        today now user_id days = some resp ∧
      resp.recommendations.length ≤ 5 ∧
      resp.recommendations.map (fun r => r.rank) =
        List.range' 1 resp.recommendations.length ∧
      List.Sublist (resp.recommendations.map (fun r => r.title))
        [ "Increase Daily Activity", "Improve Sleep Quality"
        , "Reduce Resting Heart Rate", "Track Weight Progress"
        , "Improve Daily Nutrition", "Stay Hydrated" ] := by
  refine ⟨_, rfl, ?_, ?_, ?_⟩
  · show (renumber _).length ≤ 5
    rw [renumber_length]
    simp
  · show (renumber _).map _ = _
    rw [renumber_map_rank, renumber_length]
  · show List.Sublist ((renumber _).map _) _
    rw [renumber, mapIdx_setRank_map (fun i => i + 1) (fun r => r.title)
      (fun r n => rfl)]
    have hsort : sortByRank (buildRecommendations
        (get_user_metrics_summary samples now days) (get_user_goals allGoals)
        (getUserAge u today)) =
        buildRecommendations (get_user_metrics_summary samples now days)
          (get_user_goals allGoals) (getUserAge u today) :=
      sortByRank_eq_self _ (rank_pairwise_of_range _ (build_map_rank _ _ _))
    rw [hsort, List.map_take]
    have hcat := foldl_addRec_titles (get_user_metrics_summary samples now days)
      (get_user_goals allGoals) (getUserAge u today) ruleOrder []
    simp only [List.map_nil, List.nil_append] at hcat
    have hcat2 : List.Sublist
        ((buildRecommendations (get_user_metrics_summary samples now days)
          (get_user_goals allGoals) (getUserAge u today)).map (fun r => r.title))
        [ "Increase Daily Activity", "Improve Sleep Quality"
        , "Reduce Resting Heart Rate", "Track Weight Progress"
        , "Improve Daily Nutrition", "Stay Hydrated" ] := by
      simpa [ruleOrder, recommendation_rules, buildRecommendations] using hcat
    exact (List.take_sublist 5 _).trans hcat2

/-- C5. The severity of every produced recommendation is "medium" when no
metric value drove the rule, "high" exactly when the driving value exceeds
1.5 and "medium" otherwise; the comparison reads nothing but the bare
number, so it is applied identically whatever metric (and hence unit) the
rule watches. -/
theorem C5_severity_threshold (rank : Nat) (rule : RuleId) (age : Option Int)
    (mv : Option ℚ) :
    ((createRecommendation rank rule age mv).severity = "high" ↔
      ∃ v, mv = some v ∧ (3 / 2 : ℚ) < v) ∧
    ((createRecommendation rank rule age mv).severity = "medium" ↔
      ∀ v, mv = some v → v ≤ (3 / 2 : ℚ)) ∧
    (∀ (rank' : Nat) (rule' : RuleId) (age' : Option Int),
      (createRecommendation rank rule age mv).severity =
        (createRecommendation rank' rule' age' mv).severity) := by
  refine ⟨?_, ?_, ?_⟩
  · cases mv with
    | none => simp [createRecommendation]
    | some v =>
        by_cases hv : (3 / 2 : ℚ) < v <;> simp [createRecommendation, hv]
  · cases mv with
    | none => simp [createRecommendation]
    | some v =>
        by_cases hv : (3 / 2 : ℚ) < v <;>
          simp [createRecommendation, hv, le_of_not_lt, not_le_of_lt]
  · intro rank' rule' age'
    cases mv <;> simp [createRecommendation]

/-! ## Recommendations endpoint (`app/api/endpoints/recommendations.py`) -/

/-- `get_recommendations_cache_key` (`cache.py` lines 120-122). -/
def get_recommendations_cache_key (user_id days : Int) : String :=
  "recommendations:user:" ++ toString user_id ++ ":days:" ++ toString days

/-- `get_personalized_recommendations` (`recommendations.py` lines 17-76),
with effects as data: `cached` is what `cache.get(cache_key)` answers,
`engine` the engine result, and the second component records the single
`cache.set` call the handler may make (key and payload), `none` when no
write happens.  A `.error` value is the raised `HTTPException(404)`. -/
def recommendations_route (user_id days : Int) (use_cache : Bool)
    (cached : Option PersonalizedRecommendationsResponse)
    (engine : Option PersonalizedRecommendationsResponse) :
    Except String PersonalizedRecommendationsResponse ×
      Option (String × PersonalizedRecommendationsResponse) :=
  match (if use_cache then cached else none) with
  | some c => (.ok c, none)
  | none =>
      match engine with
      | none => (.error "User not found", none)
      | some r =>
          (.ok r, if use_cache then some (get_recommendations_cache_key user_id days, r) else none)

/-- C4. A nonexistent user makes the engine return its NotFound value
(`None`), never a response with an empty list — an existing user always
yields a response, so the two states stay distinct — and the boundary
turns it into the 404 error without writing any cache entry. -/
theorem C4_nonexistent_user_not_found (samples : List HealthMetric)
    (allGoals : List HealthGoal) (today : CalDate)
    (now user_id days : Int) (use_cache : Bool) :
    generate_personalized_recommendations none samples allGoals today now
        user_id days = none ∧
    (∀ u : UserProfile, (generate_personalized_recommendations (some u) samples
        allGoals today now user_id days).isSome = true) ∧
    recommendations_route user_id days use_cache none
        (generate_personalized_recommendations none samples allGoals today now
          user_id days) =
      (.error "User not found", none) := by
  refine ⟨rfl, fun u => rfl, ?_⟩
  cases use_cache <;> rfl

theorem mem_groupTypes (ms : List HealthMetric) (t : String) :
    t ∈ groupTypes ms ↔ ∃ m ∈ ms, m.metric_type = t := by
  have key : ∀ (l : List HealthMetric) (acc : List String),
      t ∈ l.foldl (fun acc m =>
        if m.metric_type ∈ acc then acc else acc ++ [m.metric_type]) acc ↔
      t ∈ acc ∨ ∃ m ∈ l, m.metric_type = t := by
    intro l
    induction l with
    | nil => simp
    | cons m l ih =>
        intro acc
        rw [List.foldl_cons, ih]
        have hstep : t ∈ (if m.metric_type ∈ acc then acc
            else acc ++ [m.metric_type]) ↔ t ∈ acc ∨ t = m.metric_type := by
          by_cases hm : m.metric_type ∈ acc
          · rw [if_pos hm]
            constructor
            · exact Or.inl
            · rintro (h | rfl)
              · exact h
              · exact hm
          · rw [if_neg hm]
            simp
        rw [hstep]
        constructor
        · rintro ((h | rfl) | ⟨m', hm', ht⟩)
          · exact Or.inl h
          · exact Or.inr ⟨m, List.mem_cons_self m l, rfl⟩
          · exact Or.inr ⟨m', List.mem_cons_of_mem _ hm', ht⟩
        · rintro (h | ⟨m', hm', ht⟩)
          · exact Or.inl (Or.inl h)
          · rcases List.mem_cons.mp hm' with h' | hml
            · subst h'
              exact Or.inl (Or.inr ht.symm)
            · exact Or.inr ⟨m', hml, ht⟩
  simpa [groupTypes] using key ms []

theorem lookup_filterMap_keyed (l : List String)
    (g : String → Option MetricStats) (t : String) :
    (l.filterMap (fun s => (g s).map (fun v => (s, v)))).lookup t =
      if t ∈ l then g t else none := by
  induction l with
  | nil => simp
  | cons s l ih =>
      rw [List.filterMap_cons]
      cases hg : g s with
      | none =>
          simp only [Option.map_none']
          rw [ih]
          by_cases hts : t = s
          · subst hts
            simp [hg]
          · simp [List.mem_cons, hts]
      | some v =>
          simp only [Option.map_some']
          rw [List.lookup]
          by_cases hts : t = s
          · subst hts
            simp [hg]
          · have : (t == s) = false := by simpa using hts
            rw [this, ih]
            simp [List.mem_cons, hts]

theorem valuesOf_ne_nil_iff (ms : List HealthMetric) (t : String) :
    valuesOf ms t ≠ [] ↔ ∃ m ∈ ms, m.metric_type = t ∧ m.value.isSome = true := by
  rw [valuesOf, ne_eq, List.filterMap_eq_nil_iff]
  push_neg
  constructor
  · rintro ⟨m, hm, hv⟩
    rw [List.mem_filter] at hm
    refine ⟨m, hm.1, by simpa using hm.2, ?_⟩
    rw [Option.isSome_iff_ne_none]
    exact hv
  · rintro ⟨m, hm, ht, hv⟩
    refine ⟨m, List.mem_filter.mpr ⟨hm, by simpa using ht⟩, ?_⟩
    rw [← Option.isSome_iff_ne_none]
    exact hv

theorem summary_lookup_eq (samples : List HealthMetric) (now days : Int)
    (t : String) :
    (get_user_metrics_summary samples now days).lookup t =
      (if valuesOf (windowSamples samples now days) t = [] then none
       else some (mkStats (valuesOf (windowSamples samples now days) t))) := by
  have hfun : (fun t' => if valuesOf (windowSamples samples now days) t' = []
        then none
        else some (t', mkStats (valuesOf (windowSamples samples now days) t'))) =
      (fun s => ((fun s' => if valuesOf (windowSamples samples now days) s' = []
        then none
        else some (mkStats (valuesOf (windowSamples samples now days) s'))) s).map
          (fun v => (s, v))) := by
    funext s
    by_cases h : valuesOf (windowSamples samples now days) s = [] <;> simp [h]
  show ((groupTypes (windowSamples samples now days)).filterMap
      (fun t' => if valuesOf (windowSamples samples now days) t' = [] then none
       else some (t', mkStats (valuesOf (windowSamples samples now days) t')))).lookup t = _
  rw [hfun, lookup_filterMap_keyed]
  by_cases hmem : t ∈ groupTypes (windowSamples samples now days)
  · rw [if_pos hmem]
  · rw [if_neg hmem]
    by_cases hv : valuesOf (windowSamples samples now days) t = []
    · rw [if_pos hv]
    · exfalso
      apply hmem
      rw [mem_groupTypes]
      obtain ⟨m, hm, ht, _⟩ := (valuesOf_ne_nil_iff _ _).mp hv
      exact ⟨m, hm, ht⟩

theorem filterMap_value_filter_isSome (l : List HealthMetric) :
    ∀ q : HealthMetric → Bool,
      (l.filter (fun a => q a && a.value.isSome)).filterMap (fun m => m.value) =
        (l.filter q).filterMap (fun m => m.value) := by
  induction l with
  | nil => intro q; rfl
  | cons m l ih =>
      intro q
      cases hv : m.value <;> by_cases hq : q m <;>
        simp [List.filter_cons, List.filterMap_cons, hv, hq, ih q]

theorem valuesOf_filter_isSome (ms : List HealthMetric) (t : String) :
    valuesOf (ms.filter (fun m => m.value.isSome)) t = valuesOf ms t := by
  unfold valuesOf
  rw [List.filter_filter]
  exact filterMap_value_filter_isSome ms (fun m => m.metric_type = t)

theorem windowSamples_filter_comm (samples : List HealthMetric) (now days : Int) :
    windowSamples (samples.filter (fun m => m.value.isSome)) now days =
      (windowSamples samples now days).filter (fun m => m.value.isSome) := by
  unfold windowSamples
  rw [List.filter_filter, List.filter_filter]
  congr 1
  funext m
  rw [Bool.and_comm]

/-- The statistic named by the spec for the `stdev` entry, squared: the
sample (not population) variance with divisor `n - 1`, defined as 0 when
fewer than two values exist. -/
def specSampleVarSq (vs : List ℚ) : ℚ :=
  if vs.length < 2 then 0 else sumSqDev vs / ((vs.length : ℚ) - 1)

/-- C6. The aggregation silently drops non-numeric sample values (the
summary seen through any lookup is the one computed from the numeric
samples alone), produces an entry for a metric type exactly when at least
one valid sample of that type lies in the window, and its deviation entry
is the sample statistic with divisor `n - 1`, equal to 0 whenever fewer
than two valid values exist. -/
theorem C6_aggregation_robustness (samples : List HealthMetric) (now days : Int) :
    (∀ t, (get_user_metrics_summary samples now days).lookup t =
        (get_user_metrics_summary (samples.filter (fun m => m.value.isSome))
          now days).lookup t) ∧
    (∀ t, ((get_user_metrics_summary samples now days).lookup t).isSome = true ↔
        ∃ m ∈ samples, m.metric_type = t ∧ m.value.isSome = true ∧
          now - days * 86400 ≤ m.recorded_at) ∧
    (∀ t st, (get_user_metrics_summary samples now days).lookup t = some st →
        st.count = (valuesOf (windowSamples samples now days) t).length ∧
        st.stdevSq = specSampleVarSq (valuesOf (windowSamples samples now days) t) ∧
        (st.count < 2 → st.stdevSq = 0)) := by
  have hval : ∀ t, valuesOf (windowSamples (samples.filter (fun m => m.value.isSome))
      now days) t = valuesOf (windowSamples samples now days) t := by
    intro t
    rw [windowSamples_filter_comm, valuesOf_filter_isSome]
  refine ⟨?_, ?_, ?_⟩
  · intro t
    rw [summary_lookup_eq, summary_lookup_eq, hval t]
  · intro t
    rw [summary_lookup_eq]
    have hiff : valuesOf (windowSamples samples now days) t ≠ [] ↔
        ∃ m ∈ samples, m.metric_type = t ∧ m.value.isSome = true ∧
          now - days * 86400 ≤ m.recorded_at := by
      rw [valuesOf_ne_nil_iff]
      constructor
      · rintro ⟨m, hm, ht, hv⟩
        rw [windowSamples, List.mem_filter] at hm
        exact ⟨m, hm.1, ht, hv, by simpa using hm.2⟩
      · rintro ⟨m, hm, ht, hv, hw⟩
        exact ⟨m, List.mem_filter.mpr ⟨hm, by simpa using hw⟩, ht, hv⟩
    by_cases hv : valuesOf (windowSamples samples now days) t = []
    · rw [if_pos hv]
      simp only [Option.isSome_none, Bool.false_eq_true, false_iff]
      rw [← hiff]
      intro hcon
      exact hcon hv
    · rw [if_neg hv]
      simp only [Option.isSome_some, true_iff]
      exact hiff.mp hv
  · intro t st h
    rw [summary_lookup_eq] at h
    by_cases hv : valuesOf (windowSamples samples now days) t = []
    · rw [if_pos hv] at h
      exact absurd h (by simp)
    · rw [if_neg hv] at h
      have hst : st = mkStats (valuesOf (windowSamples samples now days) t) :=
        (Option.some.inj h).symm
      subst hst
      refine ⟨rfl, ?_, ?_⟩
      · show (if 1 < (valuesOf (windowSamples samples now days) t).length then _ else _) = _
        unfold specSampleVarSq
        by_cases hlen : 1 < (valuesOf (windowSamples samples now days) t).length
        · rw [if_pos hlen, if_neg (by omega)]
        · rw [if_neg hlen, if_pos (by omega)]
      · intro hcount
        show (if 1 < (valuesOf (windowSamples samples now days) t).length then _ else _) = 0
        have : ¬ 1 < (valuesOf (windowSamples samples now days) t).length := by
          have hc : (mkStats (valuesOf (windowSamples samples now days) t)).count =
              (valuesOf (windowSamples samples now days) t).length := rfl
          rw [hc] at hcount
          omega
        rw [if_neg this]

/-- Witness for C6 at two numeric heart-rate samples: the entry has
`count = 2` and its squared deviation equals the sample variance of the
two values. -/
theorem C6_aggregation_robustness_witness :
    ({ count := 2, average := 6, minV := 5, maxV := 7, stdevSq := 2, latest := 7 } :
        MetricStats).count =
      (valuesOf (windowSamples
        [ { metric_type := "heart_rate", value := some 5, recorded_at := 3 }
        , { metric_type := "heart_rate", value := some 7, recorded_at := 10 } ]
        10 1) "heart_rate").length ∧
    ({ count := 2, average := 6, minV := 5, maxV := 7, stdevSq := 2, latest := 7 } :
        MetricStats).stdevSq =
      specSampleVarSq (valuesOf (windowSamples
        [ { metric_type := "heart_rate", value := some 5, recorded_at := 3 }
        , { metric_type := "heart_rate", value := some 7, recorded_at := 10 } ]
        10 1) "heart_rate") ∧
    (({ count := 2, average := 6, minV := 5, maxV := 7, stdevSq := 2, latest := 7 } :
        MetricStats).count < 2 →
      ({ count := 2, average := 6, minV := 5, maxV := 7, stdevSq := 2, latest := 7 } :
        MetricStats).stdevSq = 0) :=
  (C6_aggregation_robustness
    [ { metric_type := "heart_rate", value := some 5, recorded_at := 3 }
    , { metric_type := "heart_rate", value := some 7, recorded_at := 10 } ]
    10 1).2.2 "heart_rate"
    { count := 2, average := 6, minV := 5, maxV := 7, stdevSq := 2, latest := 7 }
    (by
      simp [get_user_metrics_summary, windowSamples, groupTypes, valuesOf, mkStats,
        listMean, listMin, listMax, sumSqDev, List.lookup, List.filter, List.filterMap]
      norm_num)

theorem mem_windowSamples {samples : List HealthMetric} {now days : Int}
    {m : HealthMetric} :
    m ∈ windowSamples samples now days ↔
      m ∈ samples ∧ now - days * 86400 ≤ m.recorded_at := by
  unfold windowSamples
  rw [List.mem_filter]
  simp

theorem windowSamples_sublist (samples : List HealthMetric) (now days : Int) :
    List.Sublist (windowSamples samples now days) samples := by
  unfold windowSamples
  exact List.filter_sublist samples

theorem last_numeric_dominates :
    ∀ l : List HealthMetric,
      l.Pairwise (fun a b => a.recorded_at ≤ b.recorded_at) →
      ∀ v, (l.filterMap (fun m => m.value)).getLast? = some v →
      ∃ m ∈ l, m.value = some v ∧
        ∀ m' ∈ l, m'.value.isSome = true → m'.recorded_at ≤ m.recorded_at := by
  intro l
  induction l with
  | nil =>
      intro _ v h
      simp at h
  | cons a l ih =>
      intro hp v hv
      rw [List.pairwise_cons] at hp
      cases hva : a.value with
      | none =>
          rw [List.filterMap_cons, hva] at hv
          obtain ⟨m, hm, hmv, hdom⟩ := ih hp.2 v hv
          refine ⟨m, List.mem_cons_of_mem _ hm, hmv, ?_⟩
          intro m' hm' hms
          rcases List.mem_cons.mp hm' with h' | hml
          · subst h'
            rw [hva] at hms
            simp at hms
          · exact hdom m' hml hms
      | some w =>
          rw [List.filterMap_cons, hva] at hv
          cases hfl : l.filterMap (fun m => m.value) with
          | nil =>
              rw [hfl] at hv
              have hvw : w = v := by simpa using hv
              refine ⟨a, List.mem_cons_self _ _, by rw [hva, hvw], ?_⟩
              intro m' hm' hms
              rcases List.mem_cons.mp hm' with h' | hml
              · subst h'
                exact le_refl _
              · exfalso
                have hnone := List.filterMap_eq_nil_iff.mp hfl m' hml
                rw [hnone] at hms
                simp at hms
          | cons x xs =>
              rw [hfl, List.getLast?_cons_cons, ← hfl] at hv
              obtain ⟨m, hm, hmv, hdom⟩ := ih hp.2 v hv
              refine ⟨m, List.mem_cons_of_mem _ hm, hmv, ?_⟩
              intro m' hm' hms
              rcases List.mem_cons.mp hm' with h' | hml
              · subst h'
                exact hp.1 m hm
              · exact hdom m' hml hms

/-- The spec-side reading of the `latest` entry: the value of the valid
sample with the greatest timestamp among those of the given metric type
inside the window (the earliest such sample when timestamps tie). -/
def mostRecentValue (samples : List HealthMetric) (now days : Int)
    (t : String) : Option ℚ :=
  (((windowSamples samples now days).filter
      (fun m => decide (m.metric_type = t) && m.value.isSome)).foldl
    (fun acc m =>
      match acc with
      | none => some m
      | some b => if b.recorded_at < m.recorded_at then some m else acc)
    none).bind (fun m => m.value)

/-- C8 counterexample: the engine stores `values[-1]`, the last sample in
datastore-return order, not the most recent by timestamp.  With the newer
sample (value 5, time 10) returned before the older one (value 7, time 3),
the aggregate reports `latest = 7` while the most recent sample holds 5. -/
theorem C8_counterexample_latest_is_list_order :
    ((get_user_metrics_summary
        [ { metric_type := "heart_rate", value := some 5, recorded_at := 10 }
        , { metric_type := "heart_rate", value := some 7, recorded_at := 3 } ]
        10 1).lookup "heart_rate").map (fun st => st.latest) = some 7 ∧
    mostRecentValue
        [ { metric_type := "heart_rate", value := some 5, recorded_at := 10 }
        , { metric_type := "heart_rate", value := some 7, recorded_at := 3 } ]
        10 1 "heart_rate" = some 5 ∧
    (7 : ℚ) ≠ 5 := by
  refine ⟨rfl, rfl, by norm_num⟩

/-- C8 (amended). The `latest` entry is the value of the last valid sample
of the metric type in the order the datastore returns the rows; when that
order is nondecreasing in timestamp, it is the value of a most-recent
in-window sample of that type. -/
theorem C8_latest_on_sorted_input (samples : List HealthMetric)
    (now days : Int) (t : String) (st : MetricStats)
    (hsort : samples.Pairwise (fun a b => a.recorded_at ≤ b.recorded_at))
    (hlk : (get_user_metrics_summary samples now days).lookup t = some st) :
    ∃ m ∈ samples, m.metric_type = t ∧ m.value = some st.latest ∧
      now - days * 86400 ≤ m.recorded_at ∧
      ∀ m' ∈ samples, m'.metric_type = t → m'.value.isSome = true →
        now - days * 86400 ≤ m'.recorded_at → m'.recorded_at ≤ m.recorded_at := by
  rw [summary_lookup_eq] at hlk
  by_cases hv : valuesOf (windowSamples samples now days) t = []
  · rw [if_pos hv] at hlk
    exact absurd hlk (by simp)
  · rw [if_neg hv] at hlk
    have hst : st = mkStats (valuesOf (windowSamples samples now days) t) :=
      (Option.some.inj hlk).symm
    have hvs : valuesOf (windowSamples samples now days) t =
        ((windowSamples samples now days).filter
          (fun m => m.metric_type = t)).filterMap (fun m => m.value) := rfl
    have hne : ((windowSamples samples now days).filter
        (fun m => m.metric_type = t)).filterMap (fun m => m.value) ≠ [] := by
      rw [← hvs]
      exact hv
    have hsome : (((windowSamples samples now days).filter
        (fun m => m.metric_type = t)).filterMap (fun m => m.value)).getLast?.isSome := by
      rw [List.getLast?_isSome]
      exact hne
    obtain ⟨v, hvlast⟩ := Option.isSome_iff_exists.mp hsome
    have hlat : st.latest = v := by
      rw [hst]
      show ((valuesOf (windowSamples samples now days) t).getLast?).getD 0 = v
      rw [hvs, hvlast]
      rfl
    have hw : (windowSamples samples now days).Pairwise
        (fun a b => a.recorded_at ≤ b.recorded_at) :=
      List.Pairwise.sublist (windowSamples_sublist samples now days) hsort
    have hsl : ((windowSamples samples now days).filter
        (fun m => m.metric_type = t)).Pairwise
        (fun a b => a.recorded_at ≤ b.recorded_at) :=
      List.Pairwise.sublist (List.filter_sublist _) hw
    obtain ⟨m, hm, hmv, hdom⟩ := last_numeric_dominates _ hsl v hvlast
    have hm2 := List.mem_filter.mp hm
    have hm3 := (mem_windowSamples).mp hm2.1
    refine ⟨m, hm3.1, by simpa using hm2.2, by rw [hlat]; exact hmv, hm3.2, ?_⟩
    intro m' hm' ht' hv' hw'
    exact hdom m' (List.mem_filter.mpr
      ⟨(mem_windowSamples).mpr ⟨hm', hw'⟩, by simpa using ht'⟩) hv'

/-- Witness for C8 (amended) at two sorted heart-rate samples. -/
theorem C8_latest_on_sorted_input_witness :
    ∃ m ∈ [ ({ metric_type := "heart_rate", value := some 5, recorded_at := 3 } :
              HealthMetric)
          , { metric_type := "heart_rate", value := some 7, recorded_at := 10 } ],
      m.metric_type = "heart_rate" ∧
      m.value =
        some (MetricStats.latest
          { count := 2, average := 6, minV := 5, maxV := 7, stdevSq := 2, latest := 7 }) ∧
      (10 : Int) - 1 * 86400 ≤ m.recorded_at ∧
      ∀ m' ∈ [ ({ metric_type := "heart_rate", value := some 5, recorded_at := 3 } :
                HealthMetric)
             , { metric_type := "heart_rate", value := some 7, recorded_at := 10 } ],
        m'.metric_type = "heart_rate" → m'.value.isSome = true →
        (10 : Int) - 1 * 86400 ≤ m'.recorded_at → m'.recorded_at ≤ m.recorded_at :=
  C8_latest_on_sorted_input
    [ { metric_type := "heart_rate", value := some 5, recorded_at := 3 }
    , { metric_type := "heart_rate", value := some 7, recorded_at := 10 } ]
    10 1 "heart_rate"
    { count := 2, average := 6, minV := 5, maxV := 7, stdevSq := 2, latest := 7 }
    (by decide)
    (by
      simp [get_user_metrics_summary, windowSamples, groupTypes, valuesOf, mkStats,
        listMean, listMin, listMax, sumSqDev, List.lookup, List.filter, List.filterMap]
      norm_num)

theorem addRec_length_le (c : Bool) (mk : Nat → PersonalizedRecommendation)
    (acc : List PersonalizedRecommendation) :
    (addRec c mk acc).length ≤ acc.length + 1 := by
  cases c <;> simp [addRec]

theorem foldl_addRec_length_le (ms : List (String × MetricStats))
    (goals : List HealthGoal) (age : Option Int) (rs : List RuleId) :
    ∀ acc, ((rs.foldl (fun acc r => addRec (ruleTriggers ms goals r)
      (fun n => createRecommendation n r age (ruleValue ms r)) acc) acc)).length ≤
      acc.length + rs.length := by
  induction rs with
  | nil => intro acc; simp
  | cons r rs ih =>
      intro acc
      have h1 := ih (addRec (ruleTriggers ms goals r)
        (fun n => createRecommendation n r age (ruleValue ms r)) acc)
      have h2 := addRec_length_le (ruleTriggers ms goals r)
        (fun n => createRecommendation n r age (ruleValue ms r)) acc
      simp only [List.foldl_cons, List.length_cons]
      omega

theorem build_decomp (ms : List (String × MetricStats)) (goals : List HealthGoal)
    (age : Option Int)
    (hc5 : ruleTriggers ms goals .poor_nutrition = true)
    (hv5 : ruleValue ms .poor_nutrition = none) :
    ∃ pre post, buildRecommendations ms goals age =
      pre ++ createRecommendation (pre.length + 1) .poor_nutrition age none :: post ∧
      pre.length ≤ 4 := by
  unfold buildRecommendations
  rw [show ruleOrder =
      [RuleId.low_step_count, RuleId.insufficient_sleep, RuleId.elevated_heart_rate,
        RuleId.weight_management] ++ [RuleId.poor_nutrition, RuleId.low_water_intake]
      from rfl]
  rw [List.foldl_append]
  have hlen : (([RuleId.low_step_count, RuleId.insufficient_sleep,
      RuleId.elevated_heart_rate, RuleId.weight_management]).foldl
      (fun acc r => addRec (ruleTriggers ms goals r)
        (fun n => createRecommendation n r age (ruleValue ms r)) acc)
      []).length ≤ 4 := by
    have := foldl_addRec_length_le ms goals age
      [RuleId.low_step_count, RuleId.insufficient_sleep,
        RuleId.elevated_heart_rate, RuleId.weight_management] []
    simpa using this
  set A := ([RuleId.low_step_count, RuleId.insufficient_sleep,
      RuleId.elevated_heart_rate, RuleId.weight_management]).foldl
    (fun acc r => addRec (ruleTriggers ms goals r)
      (fun n => createRecommendation n r age (ruleValue ms r)) acc) [] with hA
  simp only [List.foldl_cons, List.foldl_nil]
  have h5 : addRec (ruleTriggers ms goals .poor_nutrition)
      (fun n => createRecommendation n .poor_nutrition age (ruleValue ms .poor_nutrition))
      A = A ++ [createRecommendation (A.length + 1) .poor_nutrition age none] := by
    simp [addRec, hc5, hv5]
  rw [h5]
  cases hc6 : ruleTriggers ms goals .low_water_intake with
  | false =>
      refine ⟨A, [], ?_, hlen⟩
      simp [addRec, hc6]
  | true =>
      refine ⟨A, [createRecommendation
        ((A ++ [createRecommendation (A.length + 1) .poor_nutrition age none]).length + 1)
        .low_water_intake age (ruleValue ms .low_water_intake)], ?_, hlen⟩
      simp [addRec, hc6]

theorem mem_take_five {α : Type} (pre : List α) (x : α) (post : List α)
    (h : pre.length ≤ 4) : x ∈ (pre ++ x :: post).take 5 := by
  rw [List.take_append_eq_append_take]
  rw [List.take_of_length_le (by omega : pre.length ≤ 5)]
  apply List.mem_append_right
  obtain ⟨k, hk⟩ : ∃ k, 5 - pre.length = k + 1 := ⟨4 - pre.length, by omega⟩
  rw [hk, List.take_succ_cons]
  exact List.mem_cons_self x _

/-- C10. When the nutrition rule triggers and no calories aggregate exists
(in particular when only a "better_nutrition…" active goal triggers it),
the produced recommendation carries severity "medium" and its reasoning
string still holds the literal, unsubstituted placeholder. -/
theorem C10_nutrition_goal_without_calories (u : UserProfile)
    (samples : List HealthMetric) (allGoals : List HealthGoal)
    (today : CalDate) (now user_id days : Int)
    (hcal : (get_user_metrics_summary samples now days).lookup "calories" = none)
    (hgoal : (get_user_goals allGoals).any
      (fun g => List.isPrefixOf "better_nutrition".data g.goal_type.data) = true) :
    ∃ resp, generate_personalized_recommendations (some u) samples allGoals
        today now user_id days = some resp ∧
      ∃ r ∈ resp.recommendations,
        r.title = "Improve Daily Nutrition" ∧
        r.severity = "medium" ∧
        List.IsInfix "{value}".data r.reasoning.data := by
  refine ⟨_, rfl, ?_⟩
  obtain ⟨pre, post, hsplit, hlen⟩ := build_decomp
    (get_user_metrics_summary samples now days) (get_user_goals allGoals)
    (getUserAge u today)
    (by simp [ruleTriggers, hcal, hgoal])
    (by simp [ruleValue, hcal])
  have hsorteq : sortByRank (buildRecommendations
      (get_user_metrics_summary samples now days) (get_user_goals allGoals)
      (getUserAge u today)) =
      buildRecommendations (get_user_metrics_summary samples now days)
        (get_user_goals allGoals) (getUserAge u today) :=
    sortByRank_eq_self _ (rank_pairwise_of_range _ (build_map_rank _ _ _))
  show ∃ r ∈ renumber ((sortByRank _).take 5), _
  rw [hsorteq, hsplit]
  have hmem := mem_take_five pre
    (createRecommendation (pre.length + 1) .poor_nutrition (getUserAge u today) none)
    post hlen
  have hproj := mapIdx_setRank_map (fun i => i + 1)
    (fun r => (r.title, r.severity, r.reasoning)) (fun r n => rfl)
    ((pre ++ createRecommendation (pre.length + 1) .poor_nutrition
      (getUserAge u today) none :: post).take 5)
  have hin : ((createRecommendation (pre.length + 1) .poor_nutrition
        (getUserAge u today) none).title,
      (createRecommendation (pre.length + 1) .poor_nutrition
        (getUserAge u today) none).severity,
      (createRecommendation (pre.length + 1) .poor_nutrition
        (getUserAge u today) none).reasoning) ∈
      (renumber ((pre ++ createRecommendation (pre.length + 1) .poor_nutrition
        (getUserAge u today) none :: post).take 5)).map
        (fun r => (r.title, r.severity, r.reasoning)) := by
    rw [renumber, hproj]
    exact List.mem_map_of_mem _ hmem
  obtain ⟨r, hr, hreq⟩ := List.mem_map.mp hin
  refine ⟨r, hr, ?_, ?_, ?_⟩
  · have := congrArg Prod.fst hreq
    simpa using this
  · have := congrArg (fun p => p.2.1) hreq
    simpa using this
  · have hrsn : r.reasoning = "Average daily calories: {value}, consider balanced intake" := by
      have := congrArg (fun p => p.2.2) hreq
      simpa using this
    rw [hrsn]
    decide

/-- Witness for C10: a user with one active "better_nutrition_focus" goal
and no metric samples at all. -/
theorem C10_nutrition_goal_without_calories_witness :
    ∃ resp, generate_personalized_recommendations
        (some { id := 1, date_of_birth := none })
        [] [ { goal_type := "better_nutrition_focus", status := "active" } ]
        { year := 2026, month := 1, day := 1 } 0 1 30 = some resp ∧
      ∃ r ∈ resp.recommendations,
        r.title = "Improve Daily Nutrition" ∧
        r.severity = "medium" ∧
        List.IsInfix "{value}".data r.reasoning.data :=
  C10_nutrition_goal_without_calories { id := 1, date_of_birth := none }
    [] [ { goal_type := "better_nutrition_focus", status := "active" } ]
    { year := 2026, month := 1, day := 1 } 0 1 30 rfl (by decide)

end HealthTrack
